import Mathlib

/-!
Shallow embedding of the report tabulation engine of `src/tabulate.py`
(WAHIS scraper).  HTML tables parsed by `pandas.read_html` are modelled as
grids of cells; a cell is a string, a number, or NA (the value pandas puts
in empty/unparseable positions).  pandas `Series` objects built by
`set_index(0)[1]` / repeated `append` are modelled as ordered association
lists that keep duplicate labels, exactly as pandas does.  DataFrame rows
are modelled as ordered (column-name, value) association lists; `set_index`
only moves columns into the index (with `merge_cells=False` they are still
written on every output row), so index columns are kept as ordinary leading
fields of each row.  Exceptions (`assert`, `KeyError`, `ValueError`,
`AttributeError`, `IndexError`, `TypeError`) are modelled with
`Except String`.
-/

/-- A cell value as produced by `pandas.read_html`: a text cell, a numeric
cell, or NA.  `tabulate.py` tests text-ness with `hasattr(x, "replace")`. -/
inductive Val where
  | str (s : String)
  | int (n : Int)
  | na
deriving DecidableEq, Repr

/-- Is this cell a Python `str` (i.e. has a `.replace` attribute)? -/
def Val.isStr : Val → Bool
  | .str _ => true
  | _ => false

/-- Python `str()` / f-string rendering of a cell value. -/
def pyStr : Val → String
  | .str s => s
  | .int n => toString n
  | .na => "nan"

/-- One HTML table: a grid of cells (pandas pads rows to equal width). -/
structure Table where
  rows : List (List Val)
deriving DecidableEq, Repr

/-- `table.loc[0, 0]` — the first cell.  Tables returned by `read_html`
always have at least one row and one column, so the `.na` default for a
fully empty grid is never hit on real inputs. -/
def Table.cell00 (t : Table) : Val := (t.rows.headD []).headD .na

/-- `table.loc[0, 1]` — row 0, column 1. -/
def Table.cell01 (t : Table) : Val := ((t.rows.headD []).drop 1).headD .na

/-- `table.set_index(0)[1]` applied to one row: (first column, second
column) as a key/value pair. -/
def rowKV (r : List Val) : Val × Val := (r.headD .na, (r.drop 1).headD .na)

/-- A pandas Series: ordered labelled entries (duplicates allowed) plus a
name.  `pd.Series()` has no name. -/
structure Series where
  entries : List (Val × Val)
  name : Option String
deriving DecidableEq, Repr

/-- Label lookup (`series[label]` / attribute access); with duplicate
labels pandas returns a sub-series — modelled as the first occurrence,
which is the only case the program exercises. -/
def seriesGet (s : Series) (k : Val) : Option Val :=
  (s.entries.find? (fun p => p.1 = k)).map (·.2)

/-- First-occurrence lookup in a raw entry list. -/
def getEntry (es : List (Val × Val)) (k : Val) : Option Val :=
  (es.find? (fun p => p.1 = k)).map (·.2)

/-- Python `s.partition(",")` restricted to the pieces the program keeps:
(text before the first comma, text after it).  When no comma occurs the
whole string is the first component and the second is empty, exactly as
`partition` behaves. -/
def partitionComma : List Char → List Char × List Char
  | [] => ([], [])
  | c :: cs =>
    if c = ',' then ([], cs)
    else
      let p := partitionComma cs
      (c :: p.1, p.2)

/-- The fixed label set selecting metadata field tables (`get_details`). -/
def metadataLabels : List String :=
  ["Report type", "Source of the outbreak(s) or origin of infection",
   "Measures applied"]

/-- `table.loc[0, 0] in {...}`: NA compares unequal to every string. -/
def isMetadataTable (t : Table) : Bool :=
  match t.cell00 with
  | .str s => metadataLabels.contains s
  | _ => false

/-- `REPORT_URL.format(report_id=report_id)`. -/
def reportUrl (report_id : String) : String :=
  "https://www.oie.int/wahis_2/public/wahid.php/Reviewreport/" ++
    "Review?reportid=" ++ report_id

/-- `get_details(tables, report_id)`: split `tables[1].loc[0, 1]` on the
first comma into Disease / Country (no whitespace trimming happens), add
the Url, then `append` every metadata field table's key/value rows
(duplicate labels are concatenated, not overwritten), and name the series
with the report id. -/
def get_details (tables : List Table) (report_id : String) :
    Except String Series :=
  match tables[1]? with
  | none => Except.error "IndexError: tables[1]"
  | some t1 =>
    match t1.cell01 with
    | .str c01 =>
      let p := partitionComma c01.toList
      Except.ok
        { entries :=
            [(.str "Disease", .str ⟨p.1⟩), (.str "Country", .str ⟨p.2⟩),
             (.str "Url", .str (reportUrl report_id))] ++
            (tables.filter isMetadataTable).flatMap
              (fun t => t.rows.map rowKV),
          name := some report_id }
    | _ => Except.error "AttributeError: partition"

/-- Accumulate the value of a run of decimal digits, `int(...)` style. -/
def digitsVal (ds : List Char) : Nat :=
  ds.foldl (fun a c => a * 10 + (c.toNat - 48)) 0

/-- Does `big` start with `small`?  (Plain character-by-character test.) -/
def leadMatch : List Char → List Char → Bool
  | [], _ => true
  | _ :: _, [] => false
  | a :: as, b :: bs => a = b && leadMatch as bs

/-- `re.match("^Outbreak ([0-9]+)", s)` followed by `int(group(1))`: the
string must start with "Outbreak " and at least one digit; the captured
group is the maximal digit run that follows. -/
def outbreakMatch (s : String) : Option Nat :=
  let l := s.toList
  if leadMatch "Outbreak ".toList l then
    let ds := (l.drop 9).takeWhile Char.isDigit
    if ds.isEmpty then none else some (digitsVal ds)
  else none

/-- Combined outbreak-header test of `get_outbreaks`: the cell must be
text-like (`hasattr(..., "replace")`) and match the pattern; the parsed
outbreak number is returned. -/
def headerNum (t : Table) : Option Nat :=
  match t.cell00 with
  | .str s => outbreakMatch s
  | _ => none

/-- A DataFrame row: ordered (column name, value) pairs. -/
abbrev Row := List (Val × Val)

/-- `df.assign` semantics for one keyword: overwrite an existing column in
place, otherwise append the new column at the end. -/
def setCol (r : Row) (k v : Val) : Row :=
  if r.any (fun p => p.1 = k) then
    r.map (fun p => if p.1 = k then (k, v) else p)
  else r ++ [(k, v)]

/-- `series[label] = value`: replace the value at every occurrence of the
label (the program only ever sets the existing "Location" label). -/
def setEntries (es : List (Val × Val)) (k v : Val) : List (Val × Val) :=
  es.map (fun p => if p.1 = k then (k, v) else p)

/-- `outbreak_table.loc[0, 0] = "Location"`: relabel the header row. -/
def relabelRow0 (rows : List (List Val)) : List (List Val) :=
  match rows with
  | [] => []
  | r :: rest => ((Val.str "Location") :: r.drop 1) :: rest

/-- The outbreak-header table turned into a key→value series: row 0
relabelled "Location", `set_index(0)[1]`, then the country appended to the
location value (`f"{outbreak_table.Location}, {country}"`).  The row-0
"Location" entry always exists when this is reached (the header cell was a
matching string), so the `.getD .na` default is never hit. -/
def headerSeriesRaw (country : String) (h : Table) : List (Val × Val) :=
  let hser := (relabelRow0 h.rows).map rowKV
  let loc := (getEntry hser (.str "Location")).getD .na
  setEntries hser (.str "Location") (.str (pyStr loc ++ ", " ++ country))

/-- `df.assign(**series)`: apply every entry in order; `**` unpacking
demands string keys (TypeError otherwise). -/
def assignAll (r : Row) (es : List (Val × Val)) : Except String Row :=
  es.foldlM
    (fun acc p =>
      match p.1 with
      | .str _ => Except.ok (setCol acc p.1 p.2)
      | _ => Except.error "TypeError: keywords must be strings")
    r

/-- Pure broadcast of header entries onto a species row (the value
`assignAll` computes when every key is a string). -/
def broadcast (es : List (Val × Val)) (r : Row) : Row :=
  es.foldl (fun acc p => setCol acc p.1 p.2) r

/-- Apply a fallible function to every element in order; the first
exception aborts, as in Python iteration. -/
def mapExc (f : α → Except String β) : List α → Except String (List β)
  | [] => Except.ok []
  | a :: as =>
    match f a with
    | .error e => Except.error e
    | .ok b =>
      match mapExc f as with
      | .error e => Except.error e
      | .ok bs => Except.ok (b :: bs)

/-- One iteration of the `get_outbreaks` loop on an adjacent pair:
`ok none` = the first table is not an outbreak header (skip), `error` =
the `assert`/`del`/`assign` raised, `ok (some rows)` = the reshaped
species rows of this outbreak.  Type inference (`infer_objects`) does not
change any cell value in this model. -/
def processPair (country : String) (h s : Table) :
    Except String (Option (List Row)) :=
  match headerNum h with
  | none => Except.ok none
  | some n =>
    if s.cell00 = Val.str "Species" then
      let raw := headerSeriesRaw country h
      if raw.any (fun p => p.1 = Val.str "Affected animals") then
        let hs := raw.filter (fun p => p.1 ≠ Val.str "Affected animals")
        let colNames := s.rows.headD []
        (mapExc (fun r => assignAll r hs)
          ((s.rows.drop 1).map
            (fun r => (Val.str "Outbreak #", Val.int (n : Int)) ::
              colNames.zip r))).map some
      else Except.error "KeyError: Affected animals"
    else Except.error "AssertionError: species table expected"

/-- Run the loop over all adjacent pairs, collecting one row set per
matched pair (the `outbreaks` list of DataFrames); the first exception
aborts, as in Python. -/
def collectPairs (country : String) :
    List (Table × Table) → Except String (List (List Row))
  | [] => Except.ok []
  | (h, s) :: rest =>
    match processPair country h s with
    | .error e => Except.error e
    | .ok none => collectPairs country rest
    | .ok (some rows) =>
      match collectPairs country rest with
      | .error e => Except.error e
      | .ok dfs => Except.ok (rows :: dfs)

/-- `zip(tables, tables[1:])`: the list of adjacent pairs. -/
def tablePairs : List Table → List (Table × Table)
  | [] => []
  | [_] => []
  | a :: b :: rest => (a, b) :: tablePairs (b :: rest)

/-- `get_outbreaks(tables, report_id, country)`: process every adjacent
pair; with no matched pair return the empty frame, otherwise concatenate
the per-pair row sets and insert the "Report ID" column (kept in-row; the
subsequent `set_index` only moves it into the index). -/
def get_outbreaks (tables : List Table) (report_id country : String) :
    Except String (List Row) := do
  let dfs ← collectPairs country (tablePairs tables)
  if dfs.isEmpty then pure []
  else pure (dfs.flatten.map
    (fun r => (Val.str "Report ID", Val.str report_id) :: r))

/-- Lab-test table test: `table.loc[0, 0] == "Laboratory name and type"`. -/
def isLabTable (t : Table) : Bool :=
  t.cell00 = Val.str "Laboratory name and type"

/-- The `get_tests` loop keeps overwriting `test_table`, so the last
matching table wins. -/
def lastLab : List Table → Option Table
  | [] => none
  | t :: rest =>
    match lastLab rest with
    | some u => some u
    | none => if isLabTable t then some t else none

/-- Pair each row with its positional index starting at `k`; models the
RangeIndex values `read_html` gives a table (0, 1, ...), which `iloc[1:]`
retains and `reset_index` later exposes as the "Test #" column. -/
def numberRows (k : Int) : List (List Val) → List (Int × List Val)
  | [] => []
  | r :: rest => (k, r) :: numberRows (k + 1) rest

/-- `get_tests(tables, report_id)`: if a lab-test table exists, promote
its first row to column headers, keep the remaining rows with their
original index values 1.., and key by (Report ID, Test #) — both kept
in-row, as `set_index` only moves them into the index. -/
def get_tests (tables : List Table) (report_id : String) : List Row :=
  match lastLab tables with
  | none => []
  | some t =>
    let colNames := t.rows.headD []
    (numberRows 1 (t.rows.drop 1)).map
      (fun p => (Val.str "Report ID", Val.str report_id) ::
        (Val.str "Test #", Val.int p.1) :: colNames.zip p.2)

/-- The substring test `needle in body` of Python. -/
def hasSub (needle : List Char) : List Char → Bool
  | [] => needle.isEmpty
  | c :: cs => leadMatch needle (c :: cs) || hasSub needle cs

/-- The application-error marker searched for in the raw document body. -/
def appErrorMarker : List Char := "Application Error".toList

/-- One fetched document as `process_report` sees it: either
`pd.read_html` succeeds and yields the parsed tables, or it raises
`ValueError` and only the raw body is available for the marker test. -/
inductive Document where
  | parsed (tables : List Table)
  | unparseable (body : String)
deriving DecidableEq, Repr

/-- `re.findall("[0-9]+", path)[0]`: the first maximal digit run of the
path (only the first run is ever used). -/
def firstDigitRun : List Char → Option (List Char)
  | [] => none
  | c :: cs =>
    if c.isDigit then some (c :: cs.takeWhile Char.isDigit)
    else firstDigitRun cs

/-- The report id `process_report` derives from the document path. -/
def report_id_of (path : String) : Option String :=
  (firstDigitRun path.toList).map (fun l => ⟨l⟩)

/-- The empty triple returned for a placeholder document:
`pd.Series(), pd.DataFrame(), pd.DataFrame()`. -/
def emptySeries : Series := { entries := [], name := none }

/-- `process_report(path)`: placeholder documents yield the empty triple
(a warning is logged, not modelled); other parse failures re-raise.  On a
parsed document: derive the report id from the path, build details,
outbreaks (passing `details.Country`) and tests, then prepend the
denormalized Disease / Country / "Report date" columns to every outbreak
and test row (`details["Report date"]` raises KeyError when absent). -/
def process_report (path : String) (doc : Document) :
    Except String (Series × List Row × List Row) :=
  match doc with
  | .unparseable body =>
    if hasSub appErrorMarker body.toList then
      Except.ok (emptySeries, [], [])
    else Except.error "ValueError: no tables found"
  | .parsed tables => do
    let report_id ← match report_id_of path with
      | some r => Except.ok r
      | none => Except.error "IndexError: no digits in path"
    let details ← get_details tables report_id
    let countryV := (seriesGet details (.str "Country")).getD .na
    let outbreaks ← get_outbreaks tables report_id (pyStr countryV)
    let tests := get_tests tables report_id
    let diseaseV := (seriesGet details (.str "Disease")).getD .na
    let dateV ← match seriesGet details (.str "Report date") with
      | some v => Except.ok v
      | none => Except.error "KeyError: Report date"
    let addFront := fun (r : Row) =>
      (Val.str "Disease", diseaseV) :: (Val.str "Country", countryV) ::
        (Val.str "Report date", dateV) :: r
    pure (details, outbreaks.map addFront, tests.map addFront)

/-- The generator feeding `zip(*(...))`: run `process_report` on every
(path, document) in order; the first exception aborts the whole batch. -/
def processAll :
    List (String × Document) →
      Except String (List (Series × List Row × List Row))
  | [] => Except.ok []
  | d :: ds => do
    let t ← process_report d.1 d.2
    let ts ← processAll ds
    pure (t :: ts)

/-- Does a report row survive `dropna(how="all")`? (some value non-NA). -/
def seriesNonEmpty (s : Series) : Bool :=
  s.entries.any (fun p => p.2 ≠ Val.na)

/-- `process_reports(paths)`: run every report, stack the report rows and
drop the all-empty ones (the placeholder case), and concatenate all
outbreak and test row sets.  On an empty batch the unpacking
`reports, outbreaks, tests = zip(*(...))` raises ValueError (nothing to
unpack into three names). -/
def process_reports (docs : List (String × Document)) :
    Except String (List Series × List Row × List Row) :=
  if docs.isEmpty then
    Except.error "ValueError: not enough values to unpack"
  else do
    let triples ← processAll docs
    let reports := (triples.map (·.1)).filter seriesNonEmpty
    let outbreaks := (triples.map (fun t => t.2.1)).flatten
    let tests := (triples.map (fun t => t.2.2)).flatten
    pure (reports, outbreaks, tests)

/-- Well-formedness of one (outbreak-header, species) pair: the header
cell matches the pattern, the next table's first cell is literally
"Species", the header has an "Affected animals" row to delete, and every
remaining header key is a string (so `**`-unpacking succeeds). -/
def pairOk (h s : Table) : Prop :=
  (headerNum h).isSome = true ∧ s.cell00 = Val.str "Species" ∧
    (h.rows.drop 1).any (fun r => (rowKV r).1 = Val.str "Affected animals") =
      true ∧
    ∀ r ∈ h.rows.drop 1, (rowKV r).1.isStr = true

instance (h s : Table) : Decidable (pairOk h s) := by
  unfold pairOk; infer_instance

/-- The row set one well-formed pair contributes (§4.3 steps 1–6): each
species data row under the promoted column headers, the outbreak number
as leftmost field, and this pair's own header fields (location already
suffixed with the country, "Affected animals" removed) broadcast onto the
row. -/
def pairRows (country : String) (h s : Table) : List Row :=
  let hs := (headerSeriesRaw country h).filter
    (fun p => p.1 ≠ Val.str "Affected animals")
  let n := (headerNum h).getD 0
  let colNames := s.rows.headD []
  (s.rows.drop 1).map
    (fun r => broadcast hs
      ((Val.str "Outbreak #", Val.int (n : Int)) :: colNames.zip r))

/-- One segment of a document layout: either a single table that is not
an outbreak header (disease/country, metadata, lab-test or any other
table), or an adjacent (outbreak-header, species) pair. -/
abbrev Seg := Table ⊕ (Table × Table)

/-- A segment is admissible when a lone table is not header-matching and
a pair is well-formed. -/
def segOk : Seg → Prop
  | .inl t => headerNum t = none
  | .inr p => pairOk p.1 p.2

instance (seg : Seg) : Decidable (segOk seg) :=
  match seg with
  | .inl t => inferInstanceAs (Decidable (headerNum t = none))
  | .inr p => inferInstanceAs (Decidable (pairOk p.1 p.2))

/-- Rebuild the document's table list from its segments. -/
def flattenSegs : List Seg → List Table
  | [] => []
  | .inl t :: rest => t :: flattenSegs rest
  | .inr (h, s) :: rest => h :: s :: flattenSegs rest

/-- The (header, species) pairs of a segment list, in order. -/
def segPairs : List Seg → List (Table × Table)
  | [] => []
  | .inl _ :: rest => segPairs rest
  | .inr p :: rest => p :: segPairs rest

/-- Concrete inputs used by the counterexamples and witnesses below. -/
def diseaseCellTable : Table :=
  ⟨[[.str "African swine fever, Viet Nam",
     .str "African swine fever, Viet Nam"]]⟩

def dummyTable : Table := ⟨[[.str "hdr", .str "x"]]⟩

def headerNoAffected : Table := ⟨[[.str "Outbreak 1", .str "Hanoi"]]⟩

def speciesTableEx : Table :=
  ⟨[[.str "Species", .str "Susceptible"], [.str "Pigs", .str "10"]]⟩

def goodHeader1 : Table :=
  ⟨[[.str "Outbreak 1", .str "Hanoi"],
    [.str "Affected animals", .str "20"],
    [.str "Start date", .str "2020-01-01"]]⟩

def goodHeader2 : Table :=
  ⟨[[.str "Outbreak 2", .str "Hue"],
    [.str "Affected animals", .str "7"],
    [.str "Water source", .str "river"]]⟩

def speciesTableEx2 : Table :=
  ⟨[[.str "Species", .str "Susceptible"], [.str "Birds", .str "44"]]⟩

def labTableEx : Table :=
  ⟨[[.str "Laboratory name and type", .str "Species"],
    [.str "LabX", .str "Pigs"],
    [.str "LabY", .str "Birds"]]⟩

def metaTableA : Table := ⟨[[.str "Report type", .str "A"]]⟩

def metaTableB : Table := ⟨[[.str "Report type", .str "B"]]⟩

/-- A fully valid small document: dummy table, disease/country table, and
one metadata table carrying a "Report date" row. -/
def validTables : List Table :=
  [dummyTable,
   ⟨[[.str "a", .str "Disease X, Country Y"]]⟩,
   ⟨[[.str "Report type", .str "Immediate"],
     [.str "Report date", .str "01/02/2020"]]⟩]

/-- A document whose outbreak header is followed by a non-species table:
the structural-failure case. -/
def badPairTables : List Table :=
  [dummyTable,
   ⟨[[.str "a", .str "D, C"]]⟩,
   ⟨[[.str "Outbreak 1", .str "Hanoi"]]⟩,
   ⟨[[.str "notaspecies", .str "z"]]⟩]

/-- The report-metadata series `process_report` produces for
`validTables` under report id `rid`. -/
def validDetails (rid : String) : Series :=
  { entries :=
      [(.str "Disease", .str "Disease X"),
       (.str "Country", .str " Country Y"),
       (.str "Url", .str (reportUrl rid)),
       (.str "Report type", .str "Immediate"),
       (.str "Report date", .str "01/02/2020")],
    name := some rid }

/-- Document with a recurring "Report type" metadata label. -/
def dupLabelTables : List Table :=
  [dummyTable, ⟨[[.str "a", .str "D, C"]]⟩, metaTableA, metaTableB]

/-- The series `get_details` produces for `dupLabelTables`. -/
def dupLabelSeries : Series :=
  { entries :=
      [(.str "Disease", .str "D"),
       (.str "Country", .str " C"),
       (.str "Url", .str (reportUrl "7")),
       (.str "Report type", .str "A"),
       (.str "Report type", .str "B")],
    name := some "7" }

/-- A placeholder document body containing the marker. -/
def placeholderBody : String := "boom Application Error page"

/-- A document layout with two outbreak pairs surrounded by ordinary
tables (dummy, disease/country, metadata and lab-test tables). -/
def mixedDocSegs : List Seg :=
  [.inl dummyTable,
   .inl ⟨[[.str "a", .str "Disease X, Country Y"]]⟩,
   .inr (goodHeader1, speciesTableEx),
   .inl metaTableA,
   .inr (goodHeader2, speciesTableEx2),
   .inl labTableEx]

/-- A valid pairless document layout (N = 0): non-header tables only. -/
def pairlessDocSegs : List Seg :=
  [.inl dummyTable, .inl ⟨[[.str "a", .str "Disease X, Country Y"]]⟩]

/-- A valid document that also carries a lab-test table. -/
def validTablesLab : List Table := validTables ++ [labTableEx]

/-- The triple `process_report` produces for `validTablesLab` at report
id "2021". -/
def labDocOut : Series × List Row × List Row :=
  (validDetails "2021", [],
   [[(.str "Disease", .str "Disease X"),
     (.str "Country", .str " Country Y"),
     (.str "Report date", .str "01/02/2020"),
     (.str "Report ID", .str "2021"),
     (.str "Test #", .int 1),
     (.str "Laboratory name and type", .str "LabX"),
     (.str "Species", .str "Pigs")],
    [(.str "Disease", .str "Disease X"),
     (.str "Country", .str " Country Y"),
     (.str "Report date", .str "01/02/2020"),
     (.str "Report ID", .str "2021"),
     (.str "Test #", .int 2),
     (.str "Laboratory name and type", .str "LabY"),
     (.str "Species", .str "Birds")]])

theorem partitionComma_split (pre post : List Char) (h : ',' ∉ pre) :
    partitionComma (pre ++ ',' :: post) = (pre, post) := by
  induction pre with
  | nil => simp [partitionComma]
  | cons c cs ih =>
    have hc : ¬ c = ',' := fun he => h (he ▸ List.mem_cons_self c cs)
    have hcs : ',' ∉ cs := fun hm => h (List.mem_cons_of_mem _ hm)
    simp [partitionComma, hc, ih hcs]

theorem get_details_eq (tables : List Table) (rid : String) (t1 : Table)
    (s : String) (h1 : tables[1]? = some t1)
    (h2 : t1.cell01 = Val.str s) :
    get_details tables rid = Except.ok
      { entries :=
          [(.str "Disease", .str ⟨(partitionComma s.toList).1⟩),
           (.str "Country", .str ⟨(partitionComma s.toList).2⟩),
           (.str "Url", .str (reportUrl rid))] ++
          (tables.filter isMetadataTable).flatMap (fun t => t.rows.map rowKV),
        name := some rid } := by
  simp [get_details, h1, h2]

theorem get_details_name (tables : List Table) (rid : String) (ser : Series)
    (h : get_details tables rid = Except.ok ser) : ser.name = some rid := by
  unfold get_details at h
  cases h1 : tables[1]? with
  | none => rw [h1] at h; simp at h
  | some t1 =>
    rw [h1] at h
    simp only at h
    cases h2 : t1.cell01 with
    | str s =>
      rw [h2] at h
      simp at h
      rw [← h]
    | int n => rw [h2] at h; simp at h
    | na => rw [h2] at h; simp at h

theorem any_key_eq (es : List (Val × Val)) (k : Val) :
    es.any (fun p => p.1 = k) = (es.map (·.1)).any (fun x => x = k) := by
  induction es <;> simp_all

theorem setEntries_keys (es : List (Val × Val)) (k v : Val) :
    (setEntries es k v).map (·.1) = es.map (·.1) := by
  unfold setEntries
  rw [List.map_map]
  apply List.map_congr_left
  intro p _
  by_cases hp : p.1 = k
  · simp [hp]
  · simp [hp]

theorem headerSeriesRaw_keys (c : String) (h : Table) (r0 : List Val)
    (rest : List (List Val)) (hr : h.rows = r0 :: rest) :
    (headerSeriesRaw c h).map (·.1) =
      Val.str "Location" :: rest.map (fun r => (rowKV r).1) := by
  unfold headerSeriesRaw
  rw [setEntries_keys, hr]
  simp [relabelRow0, rowKV, List.map_map]

@[simp] theorem exc_ok_bind (a : α) (f : α → Except String β) :
    (Except.ok a >>= f) = f a := rfl

@[simp] theorem exc_error_bind (e : String) (f : α → Except String β) :
    ((Except.error e : Except String α) >>= f) = Except.error e := rfl

theorem processPair_skip (c : String) (h s : Table)
    (hh : headerNum h = none) : processPair c h s = Except.ok none := by
  simp [processPair, hh]

theorem headerNum_species (s : Table) (hs : s.cell00 = Val.str "Species") :
    headerNum s = none := by
  unfold headerNum
  rw [hs]
  decide

theorem collectPairs_skip (c : String) (h s : Table)
    (ps : List (Table × Table)) (hp : processPair c h s = Except.ok none) :
    collectPairs c ((h, s) :: ps) = collectPairs c ps := by
  simp [collectPairs, hp]

theorem tablePairs_mem (tables : List Table) (i : Nat) (h s : Table)
    (h1 : tables[i]? = some h) (h2 : tables[i + 1]? = some s) :
    (h, s) ∈ tablePairs tables := by
  induction tables generalizing i with
  | nil => simp at h1
  | cons a rest ih =>
    cases rest with
    | nil =>
      cases i with
      | zero => simp at h2
      | succ j => simp at h2
    | cons b rest2 =>
      cases i with
      | zero =>
        simp at h1 h2
        rw [show tablePairs (a :: b :: rest2) =
          (a, b) :: tablePairs (b :: rest2) from rfl]
        rw [h1, h2]
        exact List.mem_cons_self _ _
      | succ j =>
        have hm := ih j (by simpa using h1) (by simpa using h2)
        rw [show tablePairs (a :: b :: rest2) =
          (a, b) :: tablePairs (b :: rest2) from rfl]
        exact List.mem_cons_of_mem _ hm

theorem collectPairs_error_of_mem (c : String) (ps : List (Table × Table))
    (h s : Table) (hmem : (h, s) ∈ ps)
    (hh : (headerNum h).isSome = true)
    (hs : s.cell00 ≠ Val.str "Species") :
    ∃ e, collectPairs c ps = Except.error e := by
  induction ps with
  | nil => simp at hmem
  | cons p rest ih =>
    obtain ⟨a, b⟩ := p
    rcases List.mem_cons.mp hmem with heq | hmem'
    · obtain ⟨n, hn⟩ := Option.isSome_iff_exists.mp hh
      obtain ⟨rfl, rfl⟩ : a = h ∧ b = s := by
        constructor <;> { injection heq with h1 h2; simp_all }
      exact ⟨"AssertionError: species table expected",
        by simp [collectPairs, processPair, hn, hs]⟩
    · cases hpp : processPair c a b with
      | error e => exact ⟨e, by simp [collectPairs, hpp]⟩
      | ok o =>
        obtain ⟨e, he⟩ := ih hmem'
        cases o with
        | none => exact ⟨e, by simp [collectPairs, hpp, he]⟩
        | some rows => exact ⟨e, by simp [collectPairs, hpp, he]⟩

theorem assignAll_ok (es : List (Val × Val)) (r : Row)
    (hk : ∀ p ∈ es, p.1.isStr = true) :
    assignAll r es = Except.ok (broadcast es r) := by
  induction es generalizing r with
  | nil => rfl
  | cons p rest ih =>
    obtain ⟨k, v⟩ := p
    cases k with
    | str ks =>
      rw [show assignAll r ((Val.str ks, v) :: rest) =
        assignAll (setCol r (Val.str ks) v) rest from rfl]
      rw [show broadcast ((Val.str ks, v) :: rest) r =
        broadcast rest (setCol r (Val.str ks) v) from rfl]
      exact ih _ (fun q hq => hk q (List.mem_cons_of_mem _ hq))
    | int n =>
      have := hk (Val.int n, v) (List.mem_cons_self _ _)
      simp [Val.isStr] at this
    | na =>
      have := hk (Val.na, v) (List.mem_cons_self _ _)
      simp [Val.isStr] at this

theorem mapExc_ok (f : α → Except String β) (g : α → β) (l : List α)
    (hf : ∀ a ∈ l, f a = Except.ok (g a)) :
    mapExc f l = Except.ok (l.map g) := by
  induction l with
  | nil => rfl
  | cons a as ih =>
    have ha := hf a (List.mem_cons_self _ _)
    have hrest := ih (fun x hx => hf x (List.mem_cons_of_mem _ hx))
    simp [mapExc, ha, hrest]

theorem processPair_ok (c : String) (h s : Table) (hok : pairOk h s) :
    processPair c h s = Except.ok (some (pairRows c h s)) := by
  obtain ⟨hh, hs, ha, hk⟩ := hok
  obtain ⟨n, hn⟩ := Option.isSome_iff_exists.mp hh
  obtain ⟨r0, rest, hr⟩ : ∃ r0 rest, h.rows = r0 :: rest := by
    cases hrr : h.rows with
    | nil =>
      exfalso
      have : h.cell00 = Val.na := by simp [Table.cell00, hrr]
      rw [headerNum, this] at hn
      simp at hn
    | cons a b => exact ⟨a, b, rfl⟩
  have hrest : h.rows.drop 1 = rest := by rw [hr]; rfl
  have hany : (headerSeriesRaw c h).any
      (fun p => p.1 = Val.str "Affected animals") = true := by
    rw [any_key_eq, headerSeriesRaw_keys c h r0 rest hr]
    rw [hrest] at ha
    simp only [List.any_cons, List.any_map, Bool.or_eq_true]
    right
    simpa [Function.comp] using ha
  have hstr : ∀ p ∈ (headerSeriesRaw c h).filter
      (fun p => p.1 ≠ Val.str "Affected animals"), p.1.isStr = true := by
    intro p hp
    have hmem := List.mem_of_mem_filter hp
    have hkey : p.1 ∈ (headerSeriesRaw c h).map (·.1) :=
      List.mem_map_of_mem _ hmem
    rw [headerSeriesRaw_keys c h r0 rest hr] at hkey
    rcases List.mem_cons.mp hkey with heq | hmem' 
    · rw [heq]; rfl
    · obtain ⟨r, hrm, hre⟩ := List.mem_map.mp hmem'
      rw [← hre]
      exact hk r (by rw [hrest]; exact hrm)
  unfold processPair
  rw [hn]
  simp only []
  rw [if_pos hs, if_pos hany]
  rw [mapExc_ok _ (fun r => broadcast ((headerSeriesRaw c h).filter
      (fun p => p.1 ≠ Val.str "Affected animals")) r) _
    (fun r _ => assignAll_ok _ r hstr)]
  unfold pairRows
  rw [hn]
  simp [List.map_map, Except.map]
  rfl

theorem collectPairs_cons_skip (c : String) (s : Table) (L : List Table)
    (hs : headerNum s = none) :
    collectPairs c (tablePairs (s :: L)) = collectPairs c (tablePairs L) := by
  cases L with
  | nil => rfl
  | cons x rest =>
    rw [show tablePairs (s :: x :: rest) =
      (s, x) :: tablePairs (x :: rest) from rfl]
    exact collectPairs_skip c s x _ (processPair_skip c s x hs)

theorem collect_flattenSegs (c : String) (segs : List Seg)
    (hok : ∀ seg ∈ segs, segOk seg) :
    collectPairs c (tablePairs (flattenSegs segs)) =
      Except.ok ((segPairs segs).map (fun p => pairRows c p.1 p.2)) := by
  induction segs with
  | nil => rfl
  | cons seg rest ih =>
    have hih := ih (fun q hq => hok q (List.mem_cons_of_mem _ hq))
    cases seg with
    | inl t =>
      have ht : headerNum t = none :=
        hok (.inl t) (List.mem_cons_self _ _)
      rw [show flattenSegs (.inl t :: rest) =
        t :: flattenSegs rest from rfl]
      rw [collectPairs_cons_skip c t _ ht, hih]
      rfl
    | inr p =>
      obtain ⟨h, s⟩ := p
      have hpo : pairOk h s := hok (.inr (h, s)) (List.mem_cons_self _ _)
      have hsp : headerNum s = none := headerNum_species s hpo.2.1
      rw [show flattenSegs (.inr (h, s) :: rest) =
        h :: s :: flattenSegs rest from rfl]
      rw [show tablePairs (h :: s :: flattenSegs rest) =
        (h, s) :: tablePairs (s :: flattenSegs rest) from rfl]
      rw [show collectPairs c
          ((h, s) :: tablePairs (s :: flattenSegs rest)) =
        match processPair c h s with
        | .error e => Except.error e
        | .ok none => collectPairs c (tablePairs (s :: flattenSegs rest))
        | .ok (some rows) =>
          match collectPairs c (tablePairs (s :: flattenSegs rest)) with
          | .error e => Except.error e
          | .ok dfs => Except.ok (rows :: dfs) from rfl]
      rw [processPair_ok c h s hpo, collectPairs_cons_skip c s _ hsp, hih]
      rfl

theorem tablePairs_append_last (l : List Table) (t : Table) :
    tablePairs (l ++ [t]) =
      tablePairs l ++
        (match l.getLast? with
         | some x => [(x, t)]
         | none => []) := by
  induction l with
  | nil => rfl
  | cons a rest ih =>
    cases rest with
    | nil => rfl
    | cons b rest2 =>
      simp only [List.cons_append] at ih ⊢
      rw [show tablePairs (a :: b :: (rest2 ++ [t])) =
        (a, b) :: tablePairs (b :: (rest2 ++ [t])) from rfl]
      rw [ih]
      rw [show tablePairs (a :: b :: rest2) =
        (a, b) :: tablePairs (b :: rest2) from rfl]
      rw [List.getLast?_cons_cons]
      rfl

theorem collectPairs_append_skip (c : String) (ps : List (Table × Table))
    (a b : Table) (hp : processPair c a b = Except.ok none) :
    collectPairs c (ps ++ [(a, b)]) = collectPairs c ps := by
  induction ps with
  | nil => simp [collectPairs, hp]
  | cons p rest ih =>
    obtain ⟨x, y⟩ := p
    cases hpp : processPair c x y with
    | error e => simp [collectPairs, hpp]
    | ok o =>
      cases o with
      | none =>
        simp only [List.cons_append, collectPairs, hpp, List.append_eq, ih]
      | some rows =>
        simp only [List.cons_append, collectPairs, hpp, List.append_eq, ih]

theorem lastLab_none (l : List Table)
    (hl : ∀ u ∈ l, isLabTable u = false) : lastLab l = none := by
  induction l with
  | nil => rfl
  | cons t rest ih =>
    have hrest := ih (fun u hu => hl u (List.mem_cons_of_mem _ hu))
    have ht := hl t (List.mem_cons_self _ _)
    simp [lastLab, hrest, ht]

theorem lastLab_append (pre : List Table) (t : Table) (post : List Table)
    (ht : isLabTable t = true)
    (hpost : ∀ u ∈ post, isLabTable u = false) :
    lastLab (pre ++ t :: post) = some t := by
  induction pre with
  | nil =>
    simp [lastLab, lastLab_none post hpost, ht]
  | cons a rest ih =>
    simp only [List.cons_append, lastLab, List.append_eq, ih]

theorem numberRows_testnum (rid : String) (cols : List Val)
    (l : List (List Val)) (k : Int) :
    ((numberRows k l).map
        (fun p => getEntry ((Val.str "Report ID", Val.str rid) ::
          (Val.str "Test #", Val.int p.1) :: cols.zip p.2)
          (.str "Test #"))) =
      (List.range l.length).map
        (fun i : Nat => some (Val.int (k + (i : Int)))) := by
  induction l generalizing k with
  | nil => rfl
  | cons r rest ih =>
    rw [show numberRows k (r :: rest) =
      (k, r) :: numberRows (k + 1) rest from rfl]
    rw [List.map_cons, ih (k + 1)]
    rw [List.length_cons, List.range_succ_eq_map, List.map_cons,
      List.map_map]
    congr 1
    · show some (Val.int k) = some (Val.int (k + ((0 : Nat) : Int)))
      norm_num
    · apply List.map_congr_left
      intro i _
      show some (Val.int (k + 1 + (i : Int))) =
        some (Val.int (k + ((i.succ : Nat) : Int)))
      have harith : k + 1 + (i : Int) = k + ((i.succ : Nat) : Int) := by
        push_cast
        omega
      rw [harith]

theorem takeWhile_digits_append (d b : List Char)
    (hd : ∀ c ∈ d, c.isDigit = true)
    (hb : ∀ c, b.head? = some c → c.isDigit = false) :
    (d ++ b).takeWhile Char.isDigit = d := by
  induction d with
  | nil =>
    cases b with
    | nil => rfl
    | cons c cs =>
      have := hb c rfl
      simp [List.takeWhile_cons, this]
  | cons c cs ih =>
    have hc := hd c (List.mem_cons_self _ _)
    have hcs := ih (fun x hx => hd x (List.mem_cons_of_mem _ hx))
    simp [List.takeWhile_cons, hc, hcs]

theorem firstDigitRun_eq (a d b : List Char)
    (ha : ∀ c ∈ a, c.isDigit = false) (hd : d ≠ [])
    (hdd : ∀ c ∈ d, c.isDigit = true)
    (hb : ∀ c, b.head? = some c → c.isDigit = false) :
    firstDigitRun (a ++ d ++ b) = some d := by
  induction a with
  | nil =>
    cases d with
    | nil => exact absurd rfl hd
    | cons c ds =>
      have hc := hdd c (List.mem_cons_self _ _)
      have hds : ∀ x ∈ ds, x.isDigit = true :=
        fun x hx => hdd x (List.mem_cons_of_mem _ hx)
      simp only [List.nil_append, List.cons_append, firstDigitRun, hc,
        if_true, List.append_eq]
      rw [takeWhile_digits_append ds b hds hb]
  | cons x xs ih =>
    have hx := ha x (List.mem_cons_self _ _)
    have hxs := ih (fun c hc => ha c (List.mem_cons_of_mem _ hc))
    simp only [List.cons_append, firstDigitRun, hx, Bool.false_eq_true,
      if_false]
    exact hxs

theorem processAll_append (l1 l2 : List (String × Document)) :
    processAll (l1 ++ l2) =
      match processAll l1 with
      | .error e => Except.error e
      | .ok a =>
        match processAll l2 with
        | .error e => Except.error e
        | .ok b => Except.ok (a ++ b) := by
  induction l1 with
  | nil =>
    cases h2 : processAll l2 with
    | error e => simp [processAll, h2]
    | ok b => simp [processAll, h2]
  | cons d ds ih =>
    rw [List.cons_append]
    cases hd : process_report d.1 d.2 with
    | error e =>
      simp only [processAll, hd, exc_error_bind]
    | ok t =>
      simp only [processAll, hd, exc_ok_bind, ih]
      cases processAll ds with
      | error e => rfl
      | ok a =>
        cases processAll l2 with
        | error e => rfl
        | ok b => rfl

theorem processAll_error_of_mem (docs : List (String × Document))
    (p : String) (d : Document) (e : String)
    (hmem : (p, d) ∈ docs) (he : process_report p d = Except.error e) :
    ∃ e2, processAll docs = Except.error e2 := by
  induction docs with
  | nil => simp at hmem
  | cons q rest ih =>
    rcases List.mem_cons.mp hmem with heq | hmem2
    · refine ⟨e, ?_⟩
      have : process_report q.1 q.2 = Except.error e := by rw [← heq]; exact he
      simp only [processAll, this, exc_error_bind]
    · cases hq : process_report q.1 q.2 with
      | error e3 => exact ⟨e3, by simp only [processAll, hq, exc_error_bind]⟩
      | ok t =>
        obtain ⟨e2, he2⟩ := ih hmem2
        exact ⟨e2, by simp only [processAll, hq, exc_ok_bind, he2,
          exc_error_bind]⟩

/-- Claim C2, counterexample: with every cell of table[1] equal to
"African swine fever, Viet Nam" (so in particular cell (0,0)), the
extracted country is " Viet Nam" — the whitespace after the comma is NOT
trimmed, contradicting the claimed result "Viet Nam". -/
theorem C2_counterexample :
    (get_details [dummyTable, diseaseCellTable] "12345").map
        (fun ser => seriesGet ser (.str "Country")) =
      Except.ok (some (Val.str " Viet Nam")) ∧
    some (Val.str " Viet Nam") ≠ some (Val.str "Viet Nam") := by
  constructor
  · rfl
  · decide

/-- Claim C2, amended: the Report Extractor splits cell (0,1) of table[1]
(the value column, not cell (0,0)) on the first comma; disease is the part
before the comma and country is the part after it with NO whitespace
trimming. -/
theorem C2_amended_thm (tables : List Table) (rid : String) (t1 : Table)
    (pre post : List Char) (h1 : tables[1]? = some t1)
    (h2 : t1.cell01 = Val.str ⟨pre ++ ',' :: post⟩) (hp : ',' ∉ pre) :
    ∃ ser, get_details tables rid = Except.ok ser ∧
      seriesGet ser (.str "Disease") = some (.str ⟨pre⟩) ∧
      seriesGet ser (.str "Country") = some (.str ⟨post⟩) := by
  have hsplit : partitionComma (String.toList ⟨pre ++ ',' :: post⟩) =
      (pre, post) := partitionComma_split pre post hp
  refine ⟨_, get_details_eq tables rid t1 _ h1 h2, ?_, ?_⟩
  · simp only [seriesGet, hsplit]
    rfl
  · simp only [seriesGet, hsplit]
    rfl

/-- Claim C2, witness for the amended theorem at the example input. -/
theorem C2_amended_witness :
    ∃ ser, get_details [dummyTable, diseaseCellTable] "12345" =
        Except.ok ser ∧
      seriesGet ser (.str "Disease") = some (.str "African swine fever") ∧
      seriesGet ser (.str "Country") = some (.str " Viet Nam") :=
  C2_amended_thm [dummyTable, diseaseCellTable] "12345" diseaseCellTable
    "African swine fever".toList " Viet Nam".toList rfl rfl (by decide)

theorem headerNum_rows_cons (h : Table) (n : Nat)
    (hn : headerNum h = some n) : ∃ r0 rest, h.rows = r0 :: rest := by
  cases hrr : h.rows with
  | nil =>
    exfalso
    have hcell : h.cell00 = Val.na := by simp [Table.cell00, hrr]
    rw [headerNum, hcell] at hn
    simp at hn
  | cons a b => exact ⟨a, b, rfl⟩

/-- Claim C3, counterexample: an outbreak-header table with no "Affected
animals" row, followed by a proper species table, makes the extractor
raise KeyError — the deletion of that field is not optional. -/
theorem C3_counterexample :
    headerNum headerNoAffected = some 1 ∧
    speciesTableEx.cell00 = Val.str "Species" ∧
    get_outbreaks [headerNoAffected, speciesTableEx] "12345" "Viet Nam" =
      Except.error "KeyError: Affected animals" := by
  refine ⟨by decide, by decide, ?_⟩
  rfl

/-- Claim C3, amended: deleting the header's "Affected animals" field is
mandatory, not idempotent: whenever a matched (header, species) pair's
header table has no "Affected animals" key, the extractor raises KeyError
for that report. -/
theorem C3_amended_thm (h s : Table) (rid c : String)
    (hh : (headerNum h).isSome = true) (hs : s.cell00 = Val.str "Species")
    (hna : ∀ r ∈ h.rows.drop 1,
      (rowKV r).1 ≠ Val.str "Affected animals") :
    get_outbreaks [h, s] rid c =
      Except.error "KeyError: Affected animals" := by
  obtain ⟨n, hn⟩ := Option.isSome_iff_exists.mp hh
  obtain ⟨r0, rest, hr⟩ := headerNum_rows_cons h n hn
  have hrest : h.rows.drop 1 = rest := by rw [hr]; rfl
  have hany : (headerSeriesRaw c h).any
      (fun p => p.1 = Val.str "Affected animals") = false := by
    rw [any_key_eq, headerSeriesRaw_keys c h r0 rest hr]
    rw [List.any_eq_false]
    intro x hx
    rcases List.mem_cons.mp hx with rfl | hx2
    · decide
    · obtain ⟨r, hrm, rfl⟩ := List.mem_map.mp hx2
      simpa using hna r (by rw [hrest]; exact hrm)
  have hpp : processPair c h s =
      Except.error "KeyError: Affected animals" := by
    unfold processPair
    rw [hn]
    simp only []
    rw [if_pos hs]
    rw [if_neg (by rw [hany]; exact Bool.false_ne_true)]
  simp only [get_outbreaks, tablePairs, collectPairs, hpp, exc_error_bind]

/-- Claim C3, witness for the amended theorem at a concrete pair. -/
theorem C3_amended_witness :
    get_outbreaks [headerNoAffected, speciesTableEx] "1" "VN" =
      Except.error "KeyError: Affected animals" :=
  C3_amended_thm headerNoAffected speciesTableEx "1" "VN"
    (by decide) (by decide) (by decide)

/-- Claim C5 (confirmed): whenever a table whose cell (0,0) matches the
"Outbreak N" pattern is followed by a table whose cell (0,0) is not
"Species", the Outbreak Extractor raises an error for that report rather
than silently skipping the pair. -/
theorem C5_thm (tables : List Table) (rid c : String) (i : Nat)
    (h s : Table) (h1 : tables[i]? = some h) (h2 : tables[i + 1]? = some s)
    (hh : (headerNum h).isSome = true)
    (hs : s.cell00 ≠ Val.str "Species") :
    ∃ e, get_outbreaks tables rid c = Except.error e := by
  have hmem := tablePairs_mem tables i h s h1 h2
  obtain ⟨e, he⟩ := collectPairs_error_of_mem c _ h s hmem hh hs
  exact ⟨e, by simp only [get_outbreaks, he, exc_error_bind]⟩

/-- Claim C5, witness at a concrete document with a violated pairing. -/
theorem C5_witness :
    ∃ e, get_outbreaks badPairTables "1" "C" = Except.error e :=
  C5_thm badPairTables "1" "C" 2 ⟨[[.str "Outbreak 1", .str "Hanoi"]]⟩
    ⟨[[.str "notaspecies", .str "z"]]⟩ rfl rfl (by decide) (by decide)

/-- Claim C9, counterexample: in a two-table document whose FINAL table's
cell (0,0) matches the outbreak-header pattern, the extractor DOES raise
a pairing error — the final table is tested as the species table of the
preceding header, so the claim's "nor raises a pairing error" fails as a
universal statement. -/
theorem C9_counterexample :
    (headerNum (Table.mk [[.str "Outbreak 2", .str "Hue"]])).isSome =
      true ∧
    get_outbreaks [Table.mk [[.str "Outbreak 1", .str "Hanoi"]],
        Table.mk [[.str "Outbreak 2", .str "Hue"]]] "1" "VN" =
      Except.error "AssertionError: species table expected" := by
  constructor
  · decide
  · rfl

/-- Claim C9, amended: the final table is never tested as an outbreak
header (pairing only iterates over adjacent (i, i+1) first components),
but it IS tested as the species table of the preceding table; provided the
preceding table is not itself an outbreak header, appending a trailing
header-matching table changes nothing — no rows and no error. -/
theorem C9_amended_thm (ts : List Table) (t : Table) (rid c : String)
    (ht : (headerNum t).isSome = true)
    (hlast : ∀ x, ts.getLast? = some x → headerNum x = none) :
    get_outbreaks (ts ++ [t]) rid c = get_outbreaks ts rid c := by
  unfold get_outbreaks
  rw [tablePairs_append_last ts t]
  cases hl : ts.getLast? with
  | none => simp only [List.append_nil]
  | some x =>
    have hx := hlast x hl
    rw [collectPairs_append_skip c _ x t (processPair_skip c x t hx)]

/-- Claim C9, witness for the amended theorem. -/
theorem C9_amended_witness :
    get_outbreaks [dummyTable, Table.mk [[.str "Outbreak 3", .str "X"]]]
        "1" "VN" =
      get_outbreaks [dummyTable] "1" "VN" :=
  C9_amended_thm [dummyTable] (Table.mk [[.str "Outbreak 3", .str "X"]])
    "1" "VN" (by decide)
    (by intro x hx; injection hx with h; rw [← h]; decide)

/-- Claim C8 (confirmed): on any valid document layout — N well-formed
(outbreak-header, species) pairs interleaved with arbitrary non-header
tables (disease/country, metadata, lab-test tables and the like) — the
Outbreak Extractor returns exactly the concatenation of the per-pair row
sets: every row carries its own pair's outbreak number and broadcast
header fields only, with the Report ID prepended to every row; for N = 0
it returns the empty outbreak set without error. -/
theorem C8_thm (segs : List Seg) (rid c : String)
    (hok : ∀ seg ∈ segs, segOk seg) :
    get_outbreaks (flattenSegs segs) rid c =
      Except.ok ((((segPairs segs).map
        (fun p => pairRows c p.1 p.2)).flatten).map
        (fun r => (Val.str "Report ID", Val.str rid) :: r)) := by
  unfold get_outbreaks
  rw [collect_flattenSegs c segs hok, exc_ok_bind]
  cases hsp : segPairs segs with
  | nil => rfl
  | cons p rest =>
    simp only [List.map_cons, List.isEmpty_cons, Bool.false_eq_true,
      if_false]
    rfl

/-- Claim C8, witness: a document with two pairs amid other tables, and a
valid pairless document. -/
theorem C8_witness :
    get_outbreaks (flattenSegs mixedDocSegs) "77" "VN" =
      Except.ok ((((segPairs mixedDocSegs).map
        (fun p => pairRows "VN" p.1 p.2)).flatten).map
        (fun r => (Val.str "Report ID", Val.str "77") :: r)) ∧
    get_outbreaks (flattenSegs pairlessDocSegs) "77" "VN" =
      Except.ok [] := by
  constructor
  · exact C8_thm mixedDocSegs "77" "VN"
      (by intro seg hseg; fin_cases hseg <;> decide)
  · exact C8_thm pairlessDocSegs "77" "VN"
      (by intro seg hseg; fin_cases hseg <;> decide)

/-- Claim C4, counterexample: a lab-test table with two data rows yields
test-sequence numbers [1, 2] (the rows' original positions below the
promoted header row), not the claimed [0, 1]. -/
theorem C4_counterexample :
    (get_tests [labTableEx] "9").map
        (fun r => getEntry r (.str "Test #")) =
      [some (Val.int 1), some (Val.int 2)] ∧
    [some (Val.int 1), some (Val.int 2)] ≠
      [some (Val.int 0), some (Val.int 1)] := by
  constructor
  · rfl
  · decide

/-- Claim C4, amended: each data row's synthetic test-sequence number is
its 0-based position in the ORIGINAL table counting the promoted header
row at position 0 — i.e. the numbers are exactly 1, ..., M — and every
resulting row is keyed by the report id. -/
theorem C4_amended_thm (pre post : List Table) (t : Table) (rid : String)
    (ht : isLabTable t = true)
    (hpost : ∀ u ∈ post, isLabTable u = false) :
    (get_tests (pre ++ t :: post) rid).map
        (fun r => getEntry r (.str "Test #")) =
      (List.range (t.rows.drop 1).length).map
        (fun i : Nat => some (Val.int ((i : Int) + 1))) ∧
    ∀ r ∈ get_tests (pre ++ t :: post) rid,
      getEntry r (.str "Report ID") = some (.str rid) := by
  have hlab := lastLab_append pre t post ht hpost
  constructor
  · unfold get_tests
    rw [hlab]
    simp only [List.map_map]
    have h2 := numberRows_testnum rid (t.rows.headD []) (t.rows.drop 1) 1
    refine Eq.trans ?_ (Eq.trans h2 ?_)
    · rfl
    · apply List.map_congr_left
      intro i _
      congr 1
      congr 1
      omega
  · intro r hr
    unfold get_tests at hr
    rw [hlab] at hr
    simp only [] at hr
    obtain ⟨p, hp, rfl⟩ := List.mem_map.mp hr
    rfl

/-- Claim C4, witness for the amended theorem. -/
theorem C4_amended_witness :
    (get_tests [labTableEx] "9").map
        (fun r => getEntry r (.str "Test #")) =
      (List.range 2).map
        (fun i : Nat => some (Val.int ((i : Int) + 1))) ∧
    ∀ r ∈ get_tests [labTableEx] "9",
      getEntry r (.str "Report ID") = some (.str "9") :=
  C4_amended_thm [] [] labTableEx "9" (by decide) (by decide)

/-- Claim C7, counterexample: with "Report type" appearing in two metadata
field tables, the output record holds TWO entries for that label ("A" and
"B"), not exactly one last-seen value — `Series.append` concatenates
duplicate labels instead of overwriting. -/
theorem C7_counterexample :
    (get_details dupLabelTables "7").map
        (fun ser => (ser.entries.filter
          (fun p => p.1 = Val.str "Report type")).map (·.2)) =
      Except.ok [Val.str "A", Val.str "B"] ∧
    ([Val.str "A", Val.str "B"] : List Val).length ≠ 1 := by
  constructor
  · rfl
  · decide

/-- Claim C7, amended: on a recurring metadata label the record keeps
EVERY occurrence, in document order — the entries under a non-base label
are exactly the key/value rows of the metadata field tables bearing that
label, appended without deduplication. -/
theorem C7_amended_thm (tables : List Table) (rid : String) (ser : Series)
    (l : Val) (h : get_details tables rid = Except.ok ser)
    (hl1 : l ≠ Val.str "Disease") (hl2 : l ≠ Val.str "Country")
    (hl3 : l ≠ Val.str "Url") :
    ser.entries.filter (fun p => p.1 = l) =
      ((tables.filter isMetadataTable).flatMap
        (fun t => t.rows.map rowKV)).filter (fun p => p.1 = l) := by
  unfold get_details at h
  cases h1 : tables[1]? with
  | none => rw [h1] at h; simp at h
  | some t1 =>
    rw [h1] at h
    simp only at h
    cases h2 : t1.cell01 with
    | str s =>
      rw [h2] at h
      simp only [Except.ok.injEq] at h
      rw [← h]
      simp only [List.filter_append]
      have hbase : List.filter (fun p => p.1 = l)
          [(Val.str "Disease",
              Val.str ⟨(partitionComma s.toList).1⟩),
           (Val.str "Country",
              Val.str ⟨(partitionComma s.toList).2⟩),
           (Val.str "Url", Val.str (reportUrl rid))] = [] := by
        simp [List.filter, Ne.symm hl1, Ne.symm hl2, Ne.symm hl3]
      rw [hbase, List.nil_append]
    | int n => rw [h2] at h; simp at h
    | na => rw [h2] at h; simp at h

/-- Claim C7, witness for the amended theorem on the concrete document
with a duplicated "Report type" label. -/
theorem C7_amended_witness :
    dupLabelSeries.entries.filter
        (fun p => p.1 = Val.str "Report type") =
      ((dupLabelTables.filter isMetadataTable).flatMap
        (fun t => t.rows.map rowKV)).filter
        (fun p => p.1 = Val.str "Report type") :=
  C7_amended_thm dupLabelTables "7" dupLabelSeries (Val.str "Report type")
    rfl (by decide) (by decide) (by decide)

/-- Claim C6 (confirmed): a document whose body contains the
application-error marker (and yields no parseable tables) produces the
empty (Series, outbreaks, tests) triple without raising; a batch holding
only that document succeeds with empty output tables (no row for that
report); and in any batch with at least one other document the output is
exactly as if the placeholder report were absent.  (The remainder must be
non-empty in the last part only because an empty batch itself raises
ValueError at the zip unpacking.) -/
theorem C6_thm (path body : String)
    (hb : hasSub appErrorMarker body.toList = true)
    (docs1 docs2 : List (String × Document))
    (hne : docs1 ++ docs2 ≠ []) :
    process_report path (.unparseable body) =
      Except.ok (emptySeries, [], []) ∧
    process_reports [(path, .unparseable body)] =
      Except.ok ([], [], []) ∧
    process_reports (docs1 ++ (path, .unparseable body) :: docs2) =
      process_reports (docs1 ++ docs2) := by
  have hpr : process_report path (.unparseable body) =
      Except.ok (emptySeries, [], []) := by
    unfold process_report
    exact if_pos hb
  refine ⟨hpr, ?_, ?_⟩
  · unfold process_reports
    rw [if_neg (by simp)]
    simp only [processAll, hpr, exc_ok_bind]
    rfl
  · have hne2 : ¬((docs1 ++ docs2).isEmpty = true) := by
      intro hcon
      exact hne (by simpa using hcon)
    unfold process_reports
    rw [if_neg (by simp), if_neg hne2]
    rw [processAll_append docs1 ((path, .unparseable body) :: docs2),
      processAll_append docs1 docs2]
    cases processAll docs1 with
    | error e => rfl
    | ok a =>
      simp only [processAll, hpr, exc_ok_bind]
      cases processAll docs2 with
      | error e => rfl
      | ok b =>
        simp only [exc_ok_bind]
        simp [Except.map, pure, Except.pure, Functor.map, List.map_append,
          List.map_cons, List.filter_append, List.filter_cons,
          List.flatten_append, List.flatten_cons, seriesNonEmpty,
          emptySeries]

/-- Claim C6, witness: a concrete placeholder document alone and in a
batch with a valid document. -/
theorem C6_witness :
    process_report "x.html" (.unparseable placeholderBody) =
      Except.ok (emptySeries, [], []) ∧
    process_reports [("x.html", .unparseable placeholderBody)] =
      Except.ok ([], [], []) ∧
    process_reports [("x.html", .unparseable placeholderBody),
        ("2.html", .parsed validTables)] =
      process_reports [("2.html", .parsed validTables)] :=
  C6_thm "x.html" placeholderBody (by decide) []
    [("2.html", .parsed validTables)] (by decide)

/-- Claim C1, counterexample: a batch of two documents where the first
raises a structural failure (outbreak header followed by a non-species
table) and the second is valid on its own: `process_reports` returns the
propagated error — no results for ANY report — instead of isolating the
failure to the failing report. -/
theorem C1_counterexample :
    process_report "2.html" (.parsed validTables) =
      Except.ok (validDetails "2", [], []) ∧
    process_reports [("1.html", .parsed badPairTables),
        ("2.html", .parsed validTables)] =
      Except.error "AssertionError: species table expected" := by
  constructor
  · rfl
  · rfl

/-- Claim C1, amended: only the placeholder-document failure is isolated;
any report whose processing raises (e.g. a pairing violation) makes the
whole `process_reports` batch abort with an error, returning results for
no report. -/
theorem C1_amended_thm (docs1 docs2 : List (String × Document))
    (p : String) (d : Document) (e : String)
    (he : process_report p d = Except.error e) :
    ∃ e2, process_reports (docs1 ++ (p, d) :: docs2) =
      Except.error e2 := by
  obtain ⟨e2, h2⟩ := processAll_error_of_mem
    (docs1 ++ (p, d) :: docs2) p d e (by simp) he
  refine ⟨e2, ?_⟩
  unfold process_reports
  rw [if_neg (by simp)]
  simp only [h2, exc_error_bind]

/-- Claim C1, witness for the amended theorem at the concrete batch. -/
theorem C1_amended_witness :
    ∃ e2, process_reports [("1.html", .parsed badPairTables),
        ("2.html", .parsed validTables)] = Except.error e2 :=
  C1_amended_thm [] [("2.html", .parsed validTables)] "1.html"
    (.parsed badPairTables) "AssertionError: species table expected" rfl

theorem get_outbreaks_rows_reportid (tables : List Table)
    (rid c : String) (rows : List Row)
    (h : get_outbreaks tables rid c = Except.ok rows) :
    ∀ r ∈ rows, ∃ r2, r = (Val.str "Report ID", Val.str rid) :: r2 := by
  unfold get_outbreaks at h
  cases hc : collectPairs c (tablePairs tables) with
  | error e => rw [hc] at h; simp at h
  | ok dfs =>
    rw [hc] at h
    simp only [exc_ok_bind] at h
    by_cases hemp : dfs.isEmpty = true
    · rw [if_pos hemp] at h
      simp only [pure, Except.pure, Except.ok.injEq] at h
      rw [← h]
      simp
    · rw [if_neg hemp] at h
      simp only [pure, Except.pure, Except.ok.injEq] at h
      intro r hr
      rw [← h] at hr
      obtain ⟨r0, _hr0, hre⟩ := List.mem_map.mp hr
      exact ⟨r0, hre.symm⟩

theorem get_tests_rows_reportid (tables : List Table) (rid : String) :
    ∀ r ∈ get_tests tables rid,
      ∃ r2, r = (Val.str "Report ID", Val.str rid) :: r2 := by
  unfold get_tests
  cases lastLab tables with
  | none => simp
  | some t =>
    intro r hr
    obtain ⟨p, _hp, hre⟩ := List.mem_map.mp hr
    exact ⟨_, hre.symm⟩

/-- Claim C10 (confirmed): `process_report` derives the report id from
the FIRST maximal digit run anywhere in the full path string (directory
components included): for a path decomposing as digit-free text, a digit
run, and a remainder not starting with a digit, the derived report id is
that first run, the report record of a successful run is named by it, and
every outbreak row and every test row of the output carries it as its
"Report ID" field. -/
theorem C10_thm (a d b : List Char) (tables : List Table)
    (out : Series × List Row × List Row)
    (ha : ∀ c ∈ a, c.isDigit = false) (hd : d ≠ [])
    (hdd : ∀ c ∈ d, c.isDigit = true)
    (hb : ∀ c, b.head? = some c → c.isDigit = false)
    (hrun : process_report ⟨a ++ d ++ b⟩ (.parsed tables) =
      Except.ok out) :
    report_id_of ⟨a ++ d ++ b⟩ = some ⟨d⟩ ∧ out.1.name = some ⟨d⟩ ∧
    (∀ r ∈ out.2.1,
      getEntry r (.str "Report ID") = some (.str ⟨d⟩)) ∧
    (∀ r ∈ out.2.2,
      getEntry r (.str "Report ID") = some (.str ⟨d⟩)) := by
  have hrid : report_id_of ⟨a ++ d ++ b⟩ = some ⟨d⟩ := by
    unfold report_id_of
    rw [show String.toList ⟨a ++ d ++ b⟩ = a ++ d ++ b from rfl]
    rw [firstDigitRun_eq a d b ha hd hdd hb]
    rfl
  refine ⟨hrid, ?_⟩
  unfold process_report at hrun
  simp only at hrun
  rw [hrid] at hrun
  simp only [exc_ok_bind] at hrun
  cases hdet : get_details tables ⟨d⟩ with
  | error e => rw [hdet] at hrun; simp at hrun
  | ok ser =>
    rw [hdet] at hrun
    simp only [exc_ok_bind] at hrun
    cases hout : get_outbreaks tables ⟨d⟩
        (pyStr ((seriesGet ser (.str "Country")).getD .na)) with
    | error e => rw [hout] at hrun; simp at hrun
    | ok obs =>
      rw [hout] at hrun
      simp only [exc_ok_bind] at hrun
      cases hdate : seriesGet ser (.str "Report date") with
      | none => rw [hdate] at hrun; simp at hrun
      | some v =>
        rw [hdate] at hrun
        simp only [exc_ok_bind, pure, Except.pure,
          Except.ok.injEq] at hrun
        rw [← hrun]
        refine ⟨get_details_name tables ⟨d⟩ ser hdet, ?_, ?_⟩
        · intro r hr
          simp only [] at hr
          obtain ⟨r0, hr0, hre⟩ := List.mem_map.mp hr
          obtain ⟨r2, hr2⟩ :=
            get_outbreaks_rows_reportid tables ⟨d⟩ _ obs hout r0 hr0
          rw [← hre, hr2]
          rfl
        · intro r hr
          simp only [] at hr
          obtain ⟨r0, hr0, hre⟩ := List.mem_map.mp hr
          obtain ⟨r2, hr2⟩ :=
            get_tests_rows_reportid tables ⟨d⟩ r0 hr0
          rw [← hre, hr2]
          rfl

/-- Claim C10, witness: the digits of the directory component
"reports2021" become the report id, beating the later digits in the file
name; the report record is named "2021" and both test rows of the
document's lab table carry Report ID "2021". -/
theorem C10_witness :
    report_id_of "reports2021/r_99.html" = some "2021" ∧
    labDocOut.1.name = some "2021" ∧
    (∀ r ∈ labDocOut.2.1,
      getEntry r (.str "Report ID") = some (.str "2021")) ∧
    (∀ r ∈ labDocOut.2.2,
      getEntry r (.str "Report ID") = some (.str "2021")) :=
  C10_thm "reports".toList "2021".toList "/r_99.html".toList
    validTablesLab labDocOut (by decide) (by decide) (by decide)
    (by decide) rfl
